import Mathlib

/-
Verification model of the crypto trading dashboard client.

Shallow embedding of:
  * the shared data types (frontend/crypto-trading-pwa/src/types/trading.ts);
  * the MonitoringPanel message handler (the view-state reducer that keeps the
    signal list and the metrics snapshot);
  * the WebSocketService (connection lifecycle, reconnection with backoff,
    handler registry, frame decoding and fan-out), modelled as an explicit
    state machine driven by external events (public method calls, socket
    events, timer expirations).

TypeScript `number` fields are carried as `Int`: none of the verified
properties performs arithmetic on payload values, so only equality of
payloads matters and an integer carrier is faithful for that purpose.
-/

/-- The field `signal_type : 'long' | 'short'` of `TradingSignal`. -/
inductive SignalType where
  | long
  | short
deriving Repr, DecidableEq

/-- The field `market_sentiment : 'bullish' | 'bearish' | 'neutral'` of `SystemMetrics`. -/
inductive MarketSentiment where
  | bullish
  | bearish
  | neutral
deriving Repr, DecidableEq

/-- Interface `TradingSignal` from types/trading.ts: a trading recommendation
keyed by a numeric `id`. -/
structure TradingSignal where
  id : Nat
  symbol : String
  signal_type : SignalType
  entry_price : Int
  current_price : Int
  target_price : Int
  stop_loss : Int
  accuracy : Int
  confidence : Int
  created_at : String
  market_phase : String
  validation_count : Nat
deriving Repr, DecidableEq

/-- Interface `SystemMetrics` from types/trading.ts: the single system-wide
metrics snapshot. -/
structure SystemMetrics where
  overall_accuracy : Int
  total_signals : Int
  successful_predictions : Int
  average_confidence : Int
  market_sentiment : MarketSentiment
deriving Repr, DecidableEq

/-- Interface `WebSocketMessage`: a union tagged by
`type : 'signal_update' | 'metrics_update' | 'market_data'` whose `data`
payload depends on the tag.  The `market_data` payload is typed `any` and is
never inspected by this client, so it is carried as an abstract token. -/
inductive WebSocketMessage where
  | signal_update (data : TradingSignal)
  | metrics_update (data : SystemMetrics)
  | market_data (data : Nat)
deriving Repr, DecidableEq

namespace MonitoringPanel

/-- The two pieces of state the panel keeps: the `signals` list
(`useState<TradingSignal[]>([])`) and the `metrics` snapshot
(`useState<SystemMetrics | null>(null)`). -/
structure PanelState where
  signals : List TradingSignal
  metrics : Option SystemMetrics
deriving Repr, DecidableEq

/-- The `setSignals` updater inside the `signal_update` case of
`handleMessage`:

    const updated = [...prev];
    const index = updated.findIndex(s => s.id === signalData.id);
    if (index >= 0) { updated[index] = signalData; } else { updated.push(signalData); }
    return updated;

`findIndex` returns the first matching index or `-1`; the two branches are the
`some`/`none` cases of `List.findIdx?`. -/
def updateSignals (prev : List TradingSignal) (signalData : TradingSignal) :
    List TradingSignal :=
  match prev.findIdx? (fun s => s.id == signalData.id) with
  | some index => prev.set index signalData
  | none => prev ++ [signalData]

/-- The `handleMessage` callback of MonitoringPanel: a switch on
`message.type` with cases `signal_update` and `metrics_update`; any other tag
falls through the switch and leaves the state unchanged. -/
def handleMessage (st : PanelState) (message : WebSocketMessage) : PanelState :=
  match message with
  | .signal_update data => { st with signals := updateSignals st.signals data }
  | .metrics_update data => { st with metrics := some data }
  | .market_data _ => st

/-- The state the panel mounts with: empty signal list, no metrics. -/
def initialPanel : PanelState :=
  { signals := [], metrics := none }

/-- Applying a whole sequence of messages to the freshly mounted panel. -/
def runPanel (msgs : List WebSocketMessage) : PanelState :=
  msgs.foldl handleMessage initialPanel

/-- Recursive reformulation of `updateSignals`, used only inside proofs:
replace the first entry with a matching id, else append. -/
def upsertSignal : List TradingSignal → TradingSignal → List TradingSignal
  | [], d => [d]
  | s :: rest, d =>
      if s.id == d.id then d :: rest else s :: upsertSignal rest d

/-- Folding a payload sequence through the `signal_update` branch starting
from an empty list; `runPanel` over pure `signal_update` traffic computes
exactly this on its `signals` component. -/
def applySignals (payloads : List TradingSignal) : List TradingSignal :=
  payloads.foldl updateSignals []

end MonitoringPanel

namespace WebSocketService

/-
The WebSocketService class is modelled as an explicit state machine: the
mutable instance fields become a record, and each JavaScript callback
(`onopen`, `onclose`, `onerror`, `onmessage`, the `setTimeout` callbacks)
becomes a transition fired by an externally chosen event.  Sockets created by
`new WebSocket(url)` are numbered in creation order; the event handlers
installed by `setupEventHandlers` are closures over `this`, so a socket event
from any socket this service ever created and wired up dispatches to the
service, whether or not that socket is still the one stored in `this.ws`.
Ghost fields (`openedSockets`, `closedByClient`, `scheduledReconnects`,
`firedReconnects`, `deliveredLog`) record observable history and are written
only where the corresponding real effect happens; no service code reads them.
-/

/-- Actions a registered message handler may perform while it runs: the
service exposes `addMessageHandler`/`removeMessageHandler` to its clients, and
a handler may also raise an exception (`throwExc`), which aborts the rest of
that handler and propagates out of the `forEach` loop.  Handlers are
identified by reference identity, modelled as a `Nat` tag. -/
inductive HAction where
  | add (h : Nat)
  | remove (h : Nat)
  | throwExc
deriving Repr, DecidableEq

/-- What each handler does with each message: the list of service-visible
actions it performs, in order, with `throwExc` marking the point where it
throws.  This is the environment's choice, a parameter of the model. -/
def Behavior : Type :=
  Nat → WebSocketMessage → List HAction

/-- The mutable instance state of `WebSocketService`, plus ghost history. -/
structure WSState where
  ws : Option Nat
  reconnectAttempts : Nat
  messageHandlers : List Nat
  nextSocketId : Nat
  pendingTimers : List Nat
  closedByClient : List Nat
  openedSockets : List Nat
  scheduledReconnects : Nat
  firedReconnects : Nat
  deliveredLog : List (Nat × WebSocketMessage)
deriving Repr, DecidableEq

/-- `private readonly maxReconnectAttempts = 5`. -/
def maxReconnectAttempts : Nat := 5

/-- The method `handleReconnect`:

    if (this.reconnectAttempts < this.maxReconnectAttempts) {
      this.reconnectAttempts++;
      setTimeout(() => this.connect(), 1000 * Math.pow(2, this.reconnectAttempts));
    }

The increment happens before the delay is computed, so the delay uses the
already incremented counter.  `setTimeout` is modelled by appending the delay
of the scheduled callback to `pendingTimers`. -/
def handleReconnect (s : WSState) : WSState :=
  if s.reconnectAttempts < maxReconnectAttempts then
    let attempts := s.reconnectAttempts + 1
    { s with reconnectAttempts := attempts,
             pendingTimers := s.pendingTimers ++ [1000 * 2 ^ attempts],
             scheduledReconnects := s.scheduledReconnects + 1 }
  else s

/-- The method `connect`: `this.ws = new WebSocket(this.url)` followed by
`setupEventHandlers()`, inside `try ... catch { handleReconnect() }`.  The
flag `ok` says whether the constructor returns a socket or throws; on a
throw the assignment to `this.ws` does not happen and the old value stays. -/
def connect (ok : Bool) (s : WSState) : WSState :=
  if ok then
    { s with ws := some s.nextSocketId, nextSocketId := s.nextSocketId + 1 }
  else
    handleReconnect s

/-- The method `disconnect`: `if (this.ws) { this.ws.close(); this.ws = null; }`.
Nothing else happens: no flag suppressing reconnection is set and no pending
timer is cleared (the class never calls `clearTimeout`). -/
def disconnect (s : WSState) : WSState :=
  match s.ws with
  | some sid =>
      { s with ws := none, closedByClient := s.closedByClient ++ [sid] }
  | none => s

/-- The method `addMessageHandler`: `this.messageHandlers.push(handler)`. -/
def addMessageHandler (h : Nat) (s : WSState) : WSState :=
  { s with messageHandlers := s.messageHandlers ++ [h] }

/-- The method `removeMessageHandler`:
`this.messageHandlers = this.messageHandlers.filter(h => h !== handler)`.
It rebinds the field to a freshly built array; the previous array object is
never mutated. -/
def removeMessageHandler (h : Nat) (s : WSState) : WSState :=
  { s with messageHandlers := s.messageHandlers.filter (fun g => g != h) }

/-- Run one handler's actions against the service.  The returned flag is true
when the handler threw; the actions following the throw do not run. -/
def runActions : List HAction → WSState → WSState × Bool
  | [], s => (s, false)
  | HAction.add g :: rest, s => runActions rest (addMessageHandler g s)
  | HAction.remove g :: rest, s => runActions rest (removeMessageHandler g s)
  | HAction.throwExc :: _, s => (s, true)

/-- Invoke handler `h` on message `m`: the invocation itself is recorded in
`deliveredLog`, then the handler's body runs. -/
def invokeHandler (beh : Behavior) (h : Nat) (m : WebSocketMessage)
    (s : WSState) : WSState × Bool :=
  runActions (beh h m)
    { s with deliveredLog := s.deliveredLog ++ [(h, m)] }

/-- The `this.messageHandlers.forEach(handler => handler(message))` loop.
`forEach` iterates over the array value read when the call starts; since
`removeMessageHandler` rebinds the field to a new array and never mutates the
old one, the iteration snapshot is fixed.  An exception thrown by a handler
propagates out of `forEach`, skipping the remaining handlers. -/
def fanOut (beh : Behavior) (m : WebSocketMessage) :
    List Nat → WSState → WSState
  | [], s => s
  | h :: rest, s =>
      match invokeHandler beh h m s with
      | (s1, true) => s1
      | (s1, false) => fanOut beh m rest s1

/-- The `onmessage` callback:

    try {
      const message = JSON.parse(event.data) as WebSocketMessage;
      this.messageHandlers.forEach(handler => handler(message));
    } catch (error) { console.error(...); }

The result of `JSON.parse` is modelled as `Option WebSocketMessage`: `none`
is a frame whose text fails to parse, which lands in the catch block, is
logged and dropped.  A handler exception lands in the same catch block. -/
def onmessage (beh : Behavior) (frame : Option WebSocketMessage)
    (s : WSState) : WSState :=
  match frame with
  | none => s
  | some message => fanOut beh message s.messageHandlers s

/-- Events a given created socket can fire at its registered callbacks. -/
inductive SockEvent where
  | openEv
  | closeEv
  | errorEv
  | messageEv (frame : Option WebSocketMessage)
deriving Repr, DecidableEq

/-- External stimuli driving the service: public method calls, socket events,
and expiration of `setTimeout` callbacks.  `timerFires i ok` fires the `i`-th
pending reconnect callback, whose body is `this.connect()`; `ok` is whether
that inner `new WebSocket` succeeds. -/
inductive WSEvent where
  | callConnect (ok : Bool)
  | callDisconnect
  | callAddHandler (h : Nat)
  | callRemoveHandler (h : Nat)
  | socket (sid : Nat) (ev : SockEvent)
  | timerFires (i : Nat) (ok : Bool)
deriving Repr, DecidableEq

/-- One transition.  Socket events are accepted from any socket this service
created (`sid < nextSocketId`): `setupEventHandlers` wires every socket the
constructor returns, and the callbacks are closures over `this`, so they keep
firing into the service even after `this.ws` is rebound or nulled:

  * `onopen`: `this.reconnectAttempts = 0`;
  * `onclose`: `this.handleReconnect()` — unconditionally, with no check of
    whether the close came from an explicit `disconnect()`;
  * `onerror`: only logs;
  * `onmessage`: decode and fan out as above. -/
def step (beh : Behavior) (s : WSState) (e : WSEvent) : WSState :=
  match e with
  | WSEvent.callConnect ok => connect ok s
  | WSEvent.callDisconnect => disconnect s
  | WSEvent.callAddHandler h => addMessageHandler h s
  | WSEvent.callRemoveHandler h => removeMessageHandler h s
  | WSEvent.socket sid ev =>
      if sid < s.nextSocketId then
        match ev with
        | SockEvent.openEv =>
            { s with reconnectAttempts := 0,
                     openedSockets := s.openedSockets ++ [sid] }
        | SockEvent.closeEv => handleReconnect s
        | SockEvent.errorEv => s
        | SockEvent.messageEv frame => onmessage beh frame s
      else s
  | WSEvent.timerFires i ok =>
      if i < s.pendingTimers.length then
        connect ok
          { s with pendingTimers := s.pendingTimers.eraseIdx i,
                   firedReconnects := s.firedReconnects + 1 }
      else s

/-- The state right after `new WebSocketService(url)`. -/
def initState : WSState :=
  { ws := none, reconnectAttempts := 0, messageHandlers := [],
    nextSocketId := 0, pendingTimers := [], closedByClient := [],
    openedSockets := [], scheduledReconnects := 0, firedReconnects := 0,
    deliveredLog := [] }

/-- Run a whole event sequence. -/
def run (beh : Behavior) (s : WSState) (evs : List WSEvent) : WSState :=
  evs.foldl (step beh) s

/-- Does this event open a connection (the `onopen` callback firing)? -/
def isOpenEvent : WSEvent → Bool
  | WSEvent.socket _ SockEvent.openEv => true
  | _ => false

/-- Does this event deliver a frame (the `onmessage` callback firing)? -/
def isMessageEvent : WSEvent → Bool
  | WSEvent.socket _ (SockEvent.messageEv _) => true
  | _ => false

/-- The fields of the service state that handler bodies can never touch:
everything except the handler registry and the delivery log. -/
def serviceCore (s : WSState) :
    Option Nat × Nat × List Nat × Nat × List Nat × List Nat × Nat × Nat :=
  (s.ws, s.reconnectAttempts, s.pendingTimers, s.nextSocketId,
    s.closedByClient, s.openedSockets, s.scheduledReconnects,
    s.firedReconnects)

/-- Counter bookkeeping tied together: the attempt counter never exceeds the
cap, every scheduled reconnect was counted by the attempt counter, and every
fired or still-pending timer was scheduled. -/
def goodCounters (s : WSState) : Prop :=
  s.reconnectAttempts ≤ maxReconnectAttempts ∧
  s.scheduledReconnects ≤ s.reconnectAttempts ∧
  s.firedReconnects + s.pendingTimers.length ≤ s.scheduledReconnects

/-- Handler `h` runs to completion (does not throw) on the listed handlers
for message `m`. -/
def noThrowOn (beh : Behavior) (m : WebSocketMessage) (hs : List Nat) : Bool :=
  hs.all (fun h => (beh h m).all (fun a => a != HAction.throwExc))

/-- The behavior in which every handler does nothing and returns. -/
def nullBehavior : Behavior :=
  fun _ _ => []

end WebSocketService

/-
Concrete payloads, messages, behaviors and service states used by witnesses
and counterexamples.  The numbers mirror the fixtures of the MonitoringPanel
test suite (BTC/USDT long at 45000 and its update to 47000).
-/

/-- A first signal payload, id 1. -/
def sigA : TradingSignal :=
  { id := 1, symbol := "BTC/USDT", signal_type := SignalType.long,
    entry_price := 45000, current_price := 46000, target_price := 47000,
    stop_loss := 44000, accuracy := 89, confidence := 95,
    created_at := "2024-01-17T12:00:00Z", market_phase := "accumulation",
    validation_count := 5 }

/-- A later payload for the same id 1 with moved price and counters. -/
def sigA2 : TradingSignal :=
  { sigA with current_price := 47000, accuracy := 91, validation_count := 6 }

/-- A payload with a fresh id 3. -/
def sigB : TradingSignal :=
  { sigA with id := 3, symbol := "SOL/USDT" }

/-- A payload with a fresh id 2. -/
def sigC : TradingSignal :=
  { sigA with id := 2, symbol := "ETH/USDT" }

/-- The metrics snapshot from the test fixtures. -/
def metricsA : SystemMetrics :=
  { overall_accuracy := 87, total_signals := 100,
    successful_predictions := 87, average_confidence := 92,
    market_sentiment := MarketSentiment.bullish }

/-- A concrete metrics message. -/
def mMsg : WebSocketMessage :=
  WebSocketMessage.metrics_update metricsA

/-- A concrete signal message, distinct from `mMsg`. -/
def sMsg : WebSocketMessage :=
  WebSocketMessage.signal_update sigA

namespace WebSocketService

/-- A behavior where handler 10 removes handler 11 while running. -/
def removerBehavior : Behavior :=
  fun h _ => if h = 10 then [HAction.remove 11] else []

/-- A behavior where handler 11 throws, but only on the message `mMsg`. -/
def throwerBehavior : Behavior :=
  fun h m => if h = 11 ∧ m = mMsg then [HAction.throwExc] else []

/-- A service that created one socket and has three registered handlers. -/
def threeHandlerState : WSState :=
  { initState with nextSocketId := 1, messageHandlers := [10, 11, 12] }

/-- A run in which the connection opens once at the transport level but the
open callback never fires successfully again: the socket closes unexpectedly
and every subsequent event is a failure — six close events arrive with no
open between them. -/
def failTrace : List WSEvent :=
  [WSEvent.callConnect true,
    WSEvent.socket 0 SockEvent.closeEv, WSEvent.socket 0 SockEvent.closeEv,
    WSEvent.socket 0 SockEvent.closeEv, WSEvent.socket 0 SockEvent.closeEv,
    WSEvent.socket 0 SockEvent.closeEv, WSEvent.socket 0 SockEvent.closeEv]

end WebSocketService

namespace MonitoringPanel

theorem updateSignals_eq_upsert (l : List TradingSignal) (d : TradingSignal) :
    updateSignals l d = upsertSignal l d := by
  induction l with
  | nil => simp [updateSignals, upsertSignal]
  | cons s rest ih =>
      by_cases h : s.id = d.id
      · simp [updateSignals, upsertSignal, List.findIdx?_cons, h]
      · have hb : (s.id == d.id) = false := by simp [h]
        unfold updateSignals upsertSignal
        rw [List.findIdx?_cons, hb]
        simp only [if_false, Bool.false_eq_true, List.findIdx?_start_succ]
        cases hfi : List.findIdx? (fun t => t.id == d.id) rest with
        | none =>
            simpa [updateSignals, hfi, hb] using ih
        | some j =>
            have := ih
            simp [updateSignals, hfi, hb] at this
            simp [hfi, List.set_cons_succ, this, hb]

theorem upsert_find? (l : List TradingSignal) (d : TradingSignal) (i : Nat) :
    (upsertSignal l d).find? (fun s => s.id == i) =
      if d.id = i then some d else l.find? (fun s => s.id == i) := by
  induction l with
  | nil => by_cases h : d.id = i <;> simp [upsertSignal, h]
  | cons s rest ih =>
      by_cases hsd : s.id = d.id
      · by_cases h : d.id = i
        · simp [upsertSignal, hsd, h]
        · have hsi : ¬ s.id = i := by rw [hsd]; exact h
          simp [upsertSignal, hsd, h, hsi]
      · by_cases hsi : s.id = i
        · have h : ¬ d.id = i := fun hdi => hsd (hsi.trans hdi.symm)
          have h2 : ¬ i = d.id := fun hc => h hc.symm
          simp [upsertSignal, hsd, hsi, h, h2]
        · by_cases h : d.id = i
          · simp [upsertSignal, hsd, hsi, h, ih]
          · simp [upsertSignal, hsd, hsi, h, ih]

theorem upsert_length (l : List TradingSignal) (d : TradingSignal) :
    (upsertSignal l d).length =
      if l.any (fun s => s.id == d.id) then l.length else l.length + 1 := by
  induction l with
  | nil => simp [upsertSignal]
  | cons s rest ih =>
      by_cases hsd : s.id = d.id
      · simp [upsertSignal, hsd]
      · simp only [upsertSignal, List.any_cons]
        by_cases hr : rest.any (fun s => s.id == d.id)
        · simp [hsd, hr, ih]
        · simp [hsd, hr, ih]

theorem foldl_handleMessage_signals (payloads : List TradingSignal) :
    ∀ st : PanelState,
      ((payloads.map WebSocketMessage.signal_update).foldl handleMessage st).signals
        = payloads.foldl updateSignals st.signals := by
  induction payloads with
  | nil => intro st; rfl
  | cons d ds ih =>
      intro st
      simp only [List.map_cons, List.foldl_cons]
      exact ih { st with signals := updateSignals st.signals d }

theorem runPanel_signals (payloads : List TradingSignal) :
    (runPanel (payloads.map WebSocketMessage.signal_update)).signals
      = applySignals payloads :=
  foldl_handleMessage_signals payloads initialPanel

theorem applySignals_concat (payloads : List TradingSignal) (d : TradingSignal) :
    applySignals (payloads ++ [d]) = updateSignals (applySignals payloads) d := by
  simp [applySignals, List.foldl_append]

theorem find?_applySignals (payloads : List TradingSignal) (i : Nat) :
    (applySignals payloads).find? (fun s => s.id == i)
      = (payloads.filter (fun d => d.id == i)).getLast? := by
  induction payloads using List.reverseRecOn with
  | nil => simp [applySignals]
  | append_singleton ds d ih =>
      rw [applySignals_concat, updateSignals_eq_upsert, upsert_find?,
        List.filter_append]
      by_cases h : d.id = i
      · simp [h, List.getLast?_concat]
      · simp only [h, if_false]
        have hnil : List.filter (fun x => x.id == i) [d] = [] := by simp [h]
        rw [hnil, List.append_nil, ih]

theorem mem_ids_applySignals (payloads : List TradingSignal) (i : Nat) :
    (applySignals payloads).any (fun s => s.id == i) = true
      ↔ i ∈ payloads.map TradingSignal.id := by
  have h1 : (applySignals payloads).any (fun s => s.id == i) = true
      ↔ ((applySignals payloads).find? (fun s => s.id == i)).isSome = true :=
    Iff.trans List.any_eq_true (Iff.symm List.find?_isSome)
  rw [h1, find?_applySignals, List.getLast?_isSome]
  constructor
  · intro hne
    rcases List.exists_mem_of_ne_nil _ hne with ⟨x, hx⟩
    have hx' := List.mem_filter.mp hx
    exact List.mem_map.mpr ⟨x, hx'.1, by simpa using hx'.2⟩
  · intro h
    rcases List.mem_map.mp h with ⟨x, hxmem, hxid⟩
    intro hnil
    have hcontra := List.filter_eq_nil_iff.mp hnil x hxmem
    simp [hxid] at hcontra

theorem length_applySignals (payloads : List TradingSignal) :
    (applySignals payloads).length
      = ((payloads.map TradingSignal.id).toFinset).card := by
  induction payloads using List.reverseRecOn with
  | nil => simp [applySignals]
  | append_singleton ds d ih =>
      rw [applySignals_concat, updateSignals_eq_upsert, upsert_length]
      have hmap : ((ds ++ [d]).map TradingSignal.id).toFinset
          = insert d.id (ds.map TradingSignal.id).toFinset := by
        rw [List.map_append, List.toFinset_append]
        simp [Finset.union_comm, Finset.insert_eq]
      rw [hmap]
      by_cases h : (applySignals ds).any (fun s => s.id == d.id)
      · have hmem : d.id ∈ (ds.map TradingSignal.id).toFinset :=
          List.mem_toFinset.mpr ((mem_ids_applySignals ds d.id).mp h)
        rw [if_pos h, Finset.card_insert_of_mem hmem, ih]
      · have hmem : d.id ∉ (ds.map TradingSignal.id).toFinset := by
          intro hc
          exact h ((mem_ids_applySignals ds d.id).mpr (List.mem_toFinset.mp hc))
        rw [if_neg h, Finset.card_insert_of_not_mem hmem, ih]

/-- C1: for every sequence of `signal_update` messages applied by the
MonitoringPanel message handler starting from the empty signal list, the
stored entry for each id is exactly the payload of the last message carrying
that id, and the length of the signal list equals the number of distinct ids
seen in the sequence. -/
theorem C1_last_write_wins (payloads : List TradingSignal) :
    (∀ i : Nat,
        (runPanel (payloads.map WebSocketMessage.signal_update)).signals.find?
            (fun s => s.id == i)
          = (payloads.filter (fun d => d.id == i)).getLast?) ∧
      (runPanel (payloads.map WebSocketMessage.signal_update)).signals.length
        = ((payloads.map TradingSignal.id).toFinset).card := by
  constructor
  · intro i
    rw [runPanel_signals, find?_applySignals]
  · rw [runPanel_signals, length_applySignals]

/-- C7: a `metrics_update` message replaces the metrics snapshot wholesale
with the message's data payload, for every prior snapshot (including none)
and every payload, and leaves the signal list untouched — no field of the
prior snapshot survives. -/
theorem C7_metrics_wholesale (signals : List TradingSignal)
    (prior : Option SystemMetrics) (m : SystemMetrics) :
    handleMessage { signals := signals, metrics := prior }
        (WebSocketMessage.metrics_update m)
      = { signals := signals, metrics := some m } :=
  rfl

/-- C8: every application of a `signal_update` payload preserves the ordering
invariant: a payload whose id is absent is appended at the end, and a payload
whose id first matches the entry at position j replaces that entry at
position j, leaving the length and every other position unchanged. -/
theorem C8_ordering (l : List TradingSignal) (d : TradingSignal) :
    (l.findIdx? (fun s => s.id == d.id) = none →
        updateSignals l d = l ++ [d]) ∧
    ∀ j : Nat, l.findIdx? (fun s => s.id == d.id) = some j →
      (updateSignals l d).length = l.length ∧
      ∀ k : Nat, (updateSignals l d)[k]? = if k = j then some d else l[k]? := by
  constructor
  · intro h
    simp [updateSignals, h]
  · intro j hj
    obtain ⟨hlt, hpj, hmin⟩ := List.findIdx?_eq_some_iff_getElem.mp hj
    constructor
    · simp [updateSignals, hj, List.length_set]
    · intro k
      simp only [updateSignals, hj]
      rw [List.getElem?_set]
      by_cases hk : k = j
      · subst hk
        simp [hlt]
      · have hjk : ¬ j = k := fun hc => hk hc.symm
        simp [hjk, hk]

/-- Witness for C8 at concrete inputs: a fresh id (3) is appended after the
entries with ids 1 and 2, and an update for id 1 replaces position 0 while
position 1 keeps its entry. -/
theorem C8_ordering_witness :
    updateSignals [sigA, sigC] sigB = [sigA, sigC] ++ [sigB] ∧
    (updateSignals [sigA, sigC] sigA2).length = 2 ∧
    (updateSignals [sigA, sigC] sigA2)[0]?
      = (if (0 : Nat) = 0 then some sigA2 else [sigA, sigC][0]?) ∧
    (updateSignals [sigA, sigC] sigA2)[1]?
      = (if (1 : Nat) = 0 then some sigA2 else [sigA, sigC][1]?) := by
  refine ⟨(C8_ordering [sigA, sigC] sigB).1 (by decide), ?_, ?_, ?_⟩
  · exact ((C8_ordering [sigA, sigC] sigA2).2 0 (by decide)).1
  · exact ((C8_ordering [sigA, sigC] sigA2).2 0 (by decide)).2 0
  · exact ((C8_ordering [sigA, sigC] sigA2).2 0 (by decide)).2 1

end MonitoringPanel

namespace WebSocketService

theorem runActions_log (acts : List HAction) :
    ∀ s : WSState, (runActions acts s).1.deliveredLog = s.deliveredLog := by
  induction acts with
  | nil => intro s; rfl
  | cons a rest ih =>
      intro s
      cases a with
      | add g => exact ih (addMessageHandler g s)
      | remove g => exact ih (removeMessageHandler g s)
      | throwExc => rfl

theorem runActions_core (acts : List HAction) :
    ∀ s : WSState, serviceCore (runActions acts s).1 = serviceCore s := by
  induction acts with
  | nil => intro s; rfl
  | cons a rest ih =>
      intro s
      cases a with
      | add g => exact ih (addMessageHandler g s)
      | remove g => exact ih (removeMessageHandler g s)
      | throwExc => rfl

theorem runActions_noThrow (acts : List HAction)
    (hn : acts.all (fun a => a != HAction.throwExc) = true) :
    ∀ s : WSState, (runActions acts s).2 = false := by
  induction acts with
  | nil => intro s; rfl
  | cons a rest ih =>
      intro s
      simp only [List.all_cons, Bool.and_eq_true] at hn
      cases a with
      | add g => exact ih hn.2 (addMessageHandler g s)
      | remove g => exact ih hn.2 (removeMessageHandler g s)
      | throwExc => simp at hn

theorem runActions_throws (acts : List HAction)
    (hn : HAction.throwExc ∈ acts) :
    ∀ s : WSState, (runActions acts s).2 = true := by
  induction acts with
  | nil => cases hn
  | cons a rest ih =>
      intro s
      cases a with
      | add g =>
          have hmem : HAction.throwExc ∈ rest := by
            cases List.mem_cons.mp hn with
            | inl h => cases h
            | inr h => exact h
          exact ih hmem (addMessageHandler g s)
      | remove g =>
          have hmem : HAction.throwExc ∈ rest := by
            cases List.mem_cons.mp hn with
            | inl h => cases h
            | inr h => exact h
          exact ih hmem (removeMessageHandler g s)
      | throwExc => rfl

theorem invokeHandler_core (beh : Behavior) (h : Nat) (m : WebSocketMessage)
    (s : WSState) :
    serviceCore (invokeHandler beh h m s).1 = serviceCore s :=
  runActions_core (beh h m) _

theorem invokeHandler_log (beh : Behavior) (h : Nat) (m : WebSocketMessage)
    (s : WSState) :
    (invokeHandler beh h m s).1.deliveredLog = s.deliveredLog ++ [(h, m)] :=
  runActions_log (beh h m) _

theorem fanOut_core (beh : Behavior) (m : WebSocketMessage) :
    ∀ (hs : List Nat) (s : WSState),
      serviceCore (fanOut beh m hs s) = serviceCore s := by
  intro hs
  induction hs with
  | nil => intro s; rfl
  | cons h rest ih =>
      intro s
      rcases hres : invokeHandler beh h m s with ⟨s1, threw⟩
      have hc : serviceCore s1 = serviceCore s := by
        have h2 := invokeHandler_core beh h m s
        rw [hres] at h2
        exact h2
      cases threw with
      | true =>
          simp only [fanOut, hres]
          exact hc
      | false =>
          simp only [fanOut, hres]
          exact (ih s1).trans hc

theorem fanOut_log_noThrow (beh : Behavior) (m : WebSocketMessage) :
    ∀ (hs : List Nat) (s : WSState), noThrowOn beh m hs = true →
      (fanOut beh m hs s).deliveredLog
        = s.deliveredLog ++ hs.map (fun h => (h, m)) := by
  intro hs
  induction hs with
  | nil => intro s _; simp [fanOut]
  | cons h rest ih =>
      intro s hn
      simp only [noThrowOn, List.all_cons, Bool.and_eq_true] at hn
      rcases hres : invokeHandler beh h m s with ⟨s1, threw⟩
      have hthrew : threw = false := by
        have h2 : (invokeHandler beh h m s).2 = false :=
          runActions_noThrow (beh h m) hn.1 _
        rw [hres] at h2
        exact h2
      subst hthrew
      simp only [fanOut, hres]
      have hlog : s1.deliveredLog = s.deliveredLog ++ [(h, m)] := by
        have h4 := invokeHandler_log beh h m s
        rw [hres] at h4
        exact h4
      rw [ih s1 hn.2, hlog]
      simp

theorem onmessage_core (beh : Behavior) (frame : Option WebSocketMessage)
    (s : WSState) : serviceCore (onmessage beh frame s) = serviceCore s := by
  cases frame with
  | none => rfl
  | some m => exact fanOut_core beh m s.messageHandlers s

theorem onmessage_log_noThrow (beh : Behavior) (m : WebSocketMessage)
    (s : WSState) (hn : noThrowOn beh m s.messageHandlers = true) :
    (onmessage beh (some m) s).deliveredLog
      = s.deliveredLog ++ s.messageHandlers.map (fun h => (h, m)) :=
  fanOut_log_noThrow beh m s.messageHandlers s hn

end WebSocketService

namespace WebSocketService

theorem goodCounters_core {s t : WSState}
    (hc : serviceCore t = serviceCore s) (hg : goodCounters s) :
    goodCounters t := by
  unfold serviceCore at hc
  simp only [Prod.mk.injEq] at hc
  obtain ⟨hws, hatt, hpend, hnext, hclosed, hopened, hsched, hfired⟩ := hc
  unfold goodCounters at hg ⊢
  rw [hatt, hpend, hsched, hfired]
  exact hg

theorem handleReconnect_good {s : WSState} (hg : goodCounters s) :
    goodCounters (handleReconnect s) := by
  obtain ⟨h1, h2, h3⟩ := hg
  unfold handleReconnect
  by_cases h : s.reconnectAttempts < maxReconnectAttempts
  · rw [if_pos h]
    refine ⟨?_, ?_, ?_⟩ <;> simp [goodCounters, List.length_append] <;> omega
  · rw [if_neg h]
    exact ⟨h1, h2, h3⟩

theorem connect_good {s : WSState} (ok : Bool) (hg : goodCounters s) :
    goodCounters (connect ok s) := by
  cases ok with
  | true => exact hg
  | false => exact handleReconnect_good hg

theorem step_good (beh : Behavior) {s : WSState} (e : WSEvent)
    (hg : goodCounters s) (he : isOpenEvent e = false) :
    goodCounters (step beh s e) := by
  cases e with
  | callConnect ok => exact connect_good ok hg
  | callDisconnect =>
      unfold step disconnect
      cases s.ws with
      | some sid => exact hg
      | none => exact hg
  | callAddHandler h => exact hg
  | callRemoveHandler h => exact hg
  | socket sid ev =>
      by_cases hsid : sid < s.nextSocketId
      · cases ev with
        | openEv => simp [isOpenEvent] at he
        | closeEv =>
            simp only [step, if_pos hsid]
            exact handleReconnect_good hg
        | errorEv =>
            simp only [step, if_pos hsid]
            exact hg
        | messageEv frame =>
            simp only [step, if_pos hsid]
            exact goodCounters_core (onmessage_core beh frame s) hg
      · simp only [step, if_neg hsid]
        exact hg
  | timerFires i ok =>
      by_cases hi : i < s.pendingTimers.length
      · simp only [step, if_pos hi]
        apply connect_good
        obtain ⟨h1, h2, h3⟩ := hg
        refine ⟨h1, h2, ?_⟩
        simp only [List.length_eraseIdx, if_pos hi]
        omega
      · simp only [step, if_neg hi]
        exact hg

theorem run_good (beh : Behavior) (evs : List WSEvent) :
    ∀ s : WSState, goodCounters s → (∀ e ∈ evs, isOpenEvent e = false) →
      goodCounters (run beh s evs) := by
  induction evs with
  | nil => intro s hg _; exact hg
  | cons e rest ih =>
      intro s hg hall
      have he := hall e (List.mem_cons_self e rest)
      have hrest : ∀ e2 ∈ rest, isOpenEvent e2 = false :=
        fun e2 h2 => hall e2 (List.mem_cons_of_mem e h2)
      exact ih (step beh s e) (step_good beh e hg he) hrest

theorem handleReconnect_log (s : WSState) :
    (handleReconnect s).deliveredLog = s.deliveredLog := by
  unfold handleReconnect
  by_cases h : s.reconnectAttempts < maxReconnectAttempts
  · rw [if_pos h]
  · rw [if_neg h]

theorem connect_log (ok : Bool) (s : WSState) :
    (connect ok s).deliveredLog = s.deliveredLog := by
  cases ok with
  | true => rfl
  | false => exact handleReconnect_log s

theorem step_log (beh : Behavior) {s : WSState} (e : WSEvent)
    (he : isMessageEvent e = false) :
    (step beh s e).deliveredLog = s.deliveredLog := by
  cases e with
  | callConnect ok => exact connect_log ok s
  | callDisconnect =>
      unfold step disconnect
      cases s.ws with
      | some sid => rfl
      | none => rfl
  | callAddHandler h => rfl
  | callRemoveHandler h => rfl
  | socket sid ev =>
      by_cases hsid : sid < s.nextSocketId
      · cases ev with
        | openEv => simp only [step, if_pos hsid]
        | closeEv =>
            simp only [step, if_pos hsid]
            exact handleReconnect_log s
        | errorEv => simp only [step, if_pos hsid]
        | messageEv frame => simp [isMessageEvent] at he
      · simp only [step, if_neg hsid]
  | timerFires i ok =>
      by_cases hi : i < s.pendingTimers.length
      · simp only [step, if_pos hi]
        exact connect_log ok _
      · simp only [step, if_neg hi]

theorem run_log (beh : Behavior) (evs : List WSEvent) :
    ∀ s : WSState, (∀ e ∈ evs, isMessageEvent e = false) →
      (run beh s evs).deliveredLog = s.deliveredLog := by
  induction evs with
  | nil => intro s _; rfl
  | cons e rest ih =>
      intro s hall
      have he := hall e (List.mem_cons_self e rest)
      have hrest : ∀ e2 ∈ rest, isMessageEvent e2 = false :=
        fun e2 h2 => hall e2 (List.mem_cons_of_mem e h2)
      exact ((ih (step beh s e) hrest).trans (step_log beh e he))

end WebSocketService

namespace WebSocketService

theorem fanOut_append_noThrow (beh : Behavior) (m : WebSocketMessage) :
    ∀ (l1 hs : List Nat) (s : WSState), noThrowOn beh m l1 = true →
      fanOut beh m (l1 ++ hs) s = fanOut beh m hs (fanOut beh m l1 s) := by
  intro l1
  induction l1 with
  | nil => intro hs s _; rfl
  | cons h rest ih =>
      intro hs s hn
      simp only [noThrowOn, List.all_cons, Bool.and_eq_true] at hn
      rcases hres : invokeHandler beh h m s with ⟨s1, threw⟩
      have hthrew : threw = false := by
        have h2 : (invokeHandler beh h m s).2 = false :=
          runActions_noThrow (beh h m) hn.1 _
        rw [hres] at h2
        exact h2
      subst hthrew
      simp only [List.cons_append, fanOut, hres]
      exact ih hs s1 hn.2

/-- C2, evaluated at the failing scenario.  Run: `connect()` succeeds (socket
0), the open event fires, `disconnect()` is called, and no further `connect()`
call is ever made.  The close event of the socket just closed still runs
`handleReconnect` — the `onclose` callback has no way to tell an intentional
close from an unexpected one — which schedules a 2000 ms reconnect timer that
`disconnect()` cannot have cancelled (the class never calls `clearTimeout`).
When that timer elapses, `connect()` runs and constructs a second socket: one
reconnection attempt fires after intentional shutdown, where the claim
requires zero. -/
theorem C2_disconnect_still_reconnects :
    (run nullBehavior initState
        [WSEvent.callConnect true, WSEvent.socket 0 SockEvent.openEv,
          WSEvent.callDisconnect,
          WSEvent.socket 0 SockEvent.closeEv]).pendingTimers = [2000] ∧
    (run nullBehavior initState
        [WSEvent.callConnect true, WSEvent.socket 0 SockEvent.openEv,
          WSEvent.callDisconnect, WSEvent.socket 0 SockEvent.closeEv,
          WSEvent.timerFires 0 true]).firedReconnects = 1 ∧
    (run nullBehavior initState
        [WSEvent.callConnect true, WSEvent.socket 0 SockEvent.openEv,
          WSEvent.callDisconnect, WSEvent.socket 0 SockEvent.closeEv,
          WSEvent.timerFires 0 true]).nextSocketId = 2 := by
  decide

/-- C3, evaluated at the failing input.  Calling `connect()` while a
connection is open is not a no-op: the state changes, a second socket is
constructed (`nextSocketId` goes from 1 to 2) and stored in `this.ws`, and
the first socket is never closed (`closedByClient` stays empty) — the service
holds two live connections. -/
theorem C3_connect_not_idempotent :
    run nullBehavior initState
        [WSEvent.callConnect true, WSEvent.socket 0 SockEvent.openEv,
          WSEvent.callConnect true]
      ≠ run nullBehavior initState
          [WSEvent.callConnect true, WSEvent.socket 0 SockEvent.openEv] ∧
    (run nullBehavior initState
        [WSEvent.callConnect true, WSEvent.socket 0 SockEvent.openEv,
          WSEvent.callConnect true]).ws = some 1 ∧
    (run nullBehavior initState
        [WSEvent.callConnect true, WSEvent.socket 0 SockEvent.openEv,
          WSEvent.callConnect true]).nextSocketId = 2 ∧
    (run nullBehavior initState
        [WSEvent.callConnect true, WSEvent.socket 0 SockEvent.openEv,
          WSEvent.callConnect true]).closedByClient = [] := by
  decide

/-- C4: in every run from a fresh service in which no open event ever fires
(an unexpected close followed by reopen attempts that all fail), at most 5
reconnect timers are ever scheduled and at most 5 ever fire; once the attempt
counter has reached the cap, `handleReconnect` is the identity — no 6th
attempt is ever scheduled and nothing changes in the state; and if no frame
ever arrives, nothing at all is delivered to handlers. -/
theorem C4_reconnect_cap (beh : Behavior) (evs : List WSEvent)
    (hopen : evs.all (fun e => !isOpenEvent e) = true) :
    (run beh initState evs).scheduledReconnects ≤ maxReconnectAttempts ∧
    (run beh initState evs).firedReconnects ≤ maxReconnectAttempts ∧
    (∀ s : WSState, maxReconnectAttempts ≤ s.reconnectAttempts →
        handleReconnect s = s) ∧
    (evs.all (fun e => !isMessageEvent e) = true →
        (run beh initState evs).deliveredLog = []) := by
  have hopen2 : ∀ e ∈ evs, isOpenEvent e = false := by
    intro e he
    have := List.all_eq_true.mp hopen e he
    simpa using this
  have hg0 : goodCounters initState := by
    refine ⟨?_, ?_, ?_⟩ <;> simp [initState, goodCounters, maxReconnectAttempts]
  obtain ⟨h1, h2, h3⟩ := run_good beh evs initState hg0 hopen2
  refine ⟨le_trans h2 h1, by omega, ?_, ?_⟩
  · intro s hs
    unfold handleReconnect
    rw [if_neg (by omega)]
  · intro hmsg
    have hmsg2 : ∀ e ∈ evs, isMessageEvent e = false := by
      intro e he
      have := List.all_eq_true.mp hmsg e he
      simpa using this
    exact run_log beh evs initState hmsg2

/-- Witness for C4 at the concrete failure run `failTrace`: one successful
socket construction followed by six close events with no open between them.
All hypotheses hold by evaluation and the bounds follow from the theorem. -/
theorem C4_reconnect_cap_witness :
    failTrace.all (fun e => !isOpenEvent e) = true ∧
    (run nullBehavior initState failTrace).scheduledReconnects
      ≤ maxReconnectAttempts ∧
    (run nullBehavior initState failTrace).firedReconnects
      ≤ maxReconnectAttempts ∧
    handleReconnect { initState with reconnectAttempts := maxReconnectAttempts }
      = { initState with reconnectAttempts := maxReconnectAttempts } ∧
    (run nullBehavior initState failTrace).deliveredLog = [] := by
  obtain ⟨h1, h2, h3, h4⟩ := C4_reconnect_cap nullBehavior failTrace (by decide)
  exact ⟨by decide, h1, h2,
    h3 { initState with reconnectAttempts := maxReconnectAttempts } (by decide),
    h4 (by decide)⟩

/-- C5, counterexample to the delay formula as claimed.  Before the first
reconnection attempt zero attempts have been made, so the claim predicts a
delay of 1000·2⁰ = 1000 ms; the code increments `reconnectAttempts` before
computing the delay and schedules the timer at 1000·2¹ = 2000 ms. -/
theorem C5_delay_counterexample :
    (run nullBehavior initState
        [WSEvent.callConnect true,
          WSEvent.socket 0 SockEvent.closeEv]).pendingTimers = [2000] ∧
    (2000 : Nat) ≠ 1000 * 2 ^ 0 := by
  decide

/-- C5 as amended: below the cap, a reconnection attempt increments the
counter and schedules the timer with delay 1000·2^(n+1) ms, where n is the
number of attempts already made before this one (equivalently: the delay uses
the counter value after the increment); and a successful open resets the
counter to zero. -/
theorem C5_delay_amended (s : WSState)
    (hlt : s.reconnectAttempts < maxReconnectAttempts) :
    handleReconnect s
      = { s with reconnectAttempts := s.reconnectAttempts + 1,
                 pendingTimers :=
                   s.pendingTimers ++ [1000 * 2 ^ (s.reconnectAttempts + 1)],
                 scheduledReconnects := s.scheduledReconnects + 1 } ∧
    (∀ (beh : Behavior) (t : WSState) (sid : Nat), sid < t.nextSocketId →
        (step beh t (WSEvent.socket sid SockEvent.openEv)).reconnectAttempts
          = 0) := by
  constructor
  · unfold handleReconnect
    rw [if_pos hlt]
  · intro beh t sid hsid
    simp only [step, if_pos hsid]

/-- Witness for C5 as amended: from a fresh service the first attempt moves
the counter from 0 to 1 and schedules 2000 ms; an open event on a service
with three earlier attempts resets the counter to zero. -/
theorem C5_delay_amended_witness :
    initState.reconnectAttempts < maxReconnectAttempts ∧
    handleReconnect initState
      = { initState with reconnectAttempts := 1, pendingTimers := [2000],
                         scheduledReconnects := 1 } ∧
    (step nullBehavior
        { initState with nextSocketId := 1, reconnectAttempts := 3 }
        (WSEvent.socket 0 SockEvent.openEv)).reconnectAttempts = 0 := by
  obtain ⟨h1, h2⟩ := C5_delay_amended initState (by decide)
  refine ⟨by decide, ?_, h2 nullBehavior
    { initState with nextSocketId := 1, reconnectAttempts := 3 } 0 (by decide)⟩
  rw [h1]
  rfl

/-- C6: a frame whose text fails to parse is dropped: the `JSON.parse` throw
lands in the catch block, so no handler is invoked, the service state is
completely unchanged (in particular the connection is not terminated), and
the transition is total — no error escapes to any caller. -/
theorem C6_bad_frame_dropped (beh : Behavior) (s : WSState) (sid : Nat) :
    step beh s (WSEvent.socket sid (SockEvent.messageEv none)) = s := by
  have hshow : step beh s (WSEvent.socket sid (SockEvent.messageEv none))
      = if sid < s.nextSocketId then onmessage beh none s else s := rfl
  rw [hshow]
  by_cases hsid : sid < s.nextSocketId
  · rw [if_pos hsid]
    rfl
  · rw [if_neg hsid]

/-- C9: for every registered handler list and every successfully decoded
message, the handlers that were registered when delivery began receive the
message in registration order, and `removeMessageHandler` calls made by a
handler during the delivery do not affect it: `forEach` iterates the array
value read at call time and removal rebinds the field to a new array, so the
delivery log grows by exactly the starting registry, in order, whatever
removals (or additions) the handlers perform. -/
theorem C9_delivery_snapshot (beh : Behavior) (s : WSState) (sid : Nat)
    (m : WebSocketMessage) (hsid : sid < s.nextSocketId)
    (hn : noThrowOn beh m s.messageHandlers = true) :
    (step beh s (WSEvent.socket sid (SockEvent.messageEv (some m)))).deliveredLog
      = s.deliveredLog ++ s.messageHandlers.map (fun h => (h, m)) := by
  simp only [step, if_pos hsid]
  exact onmessage_log_noThrow beh m s hn

/-- Witness for C9: handler 10 removes handler 11 while the message is being
delivered; handlers 10, 11 and 12 all still receive it, in order, and the
registry afterwards is [10, 12]. -/
theorem C9_delivery_snapshot_witness :
    0 < threeHandlerState.nextSocketId ∧
    noThrowOn removerBehavior mMsg threeHandlerState.messageHandlers = true ∧
    (step removerBehavior threeHandlerState
        (WSEvent.socket 0 (SockEvent.messageEv (some mMsg)))).deliveredLog
      = threeHandlerState.deliveredLog
        ++ threeHandlerState.messageHandlers.map (fun h => (h, mMsg)) ∧
    (step removerBehavior threeHandlerState
        (WSEvent.socket 0 (SockEvent.messageEv (some mMsg)))).messageHandlers
      = [10, 12] := by
  exact ⟨by decide, by decide,
    C9_delivery_snapshot removerBehavior threeHandlerState 0 mMsg
      (by decide) (by decide),
    by decide⟩

/-- C10: when a handler throws while processing a decoded message, the
handlers after it in the snapshot are not invoked for that message (the
exception propagates out of `forEach` into the catch block of `onmessage`),
the connection is untouched (`this.ws` unchanged), and delivery of later
frames is unaffected: a subsequent decoded message on which no registered
handler throws is delivered to every handler then registered. -/
theorem C10_throw_stops_fanout (beh : Behavior) (s : WSState)
    (m : WebSocketMessage) (l1 l2 : List Nat) (h : Nat)
    (hsplit : s.messageHandlers = l1 ++ h :: l2)
    (hpre : noThrowOn beh m l1 = true)
    (hthrow : HAction.throwExc ∈ beh h m) :
    (onmessage beh (some m) s).deliveredLog
        = s.deliveredLog ++ (l1 ++ [h]).map (fun g => (g, m)) ∧
    (onmessage beh (some m) s).ws = s.ws ∧
    ∀ m2 : WebSocketMessage,
      noThrowOn beh m2 (onmessage beh (some m) s).messageHandlers = true →
        (onmessage beh (some m2) (onmessage beh (some m) s)).deliveredLog
          = (onmessage beh (some m) s).deliveredLog
            ++ (onmessage beh (some m) s).messageHandlers.map
                (fun g => (g, m2)) := by
  have hmain : onmessage beh (some m) s
      = (invokeHandler beh h m (fanOut beh m l1 s)).1 := by
    show fanOut beh m s.messageHandlers s = _
    rw [hsplit, fanOut_append_noThrow beh m l1 (h :: l2) s hpre]
    rcases hres : invokeHandler beh h m (fanOut beh m l1 s) with ⟨s1, threw⟩
    have hthrew : threw = true := by
      have h2 : (invokeHandler beh h m (fanOut beh m l1 s)).2 = true :=
        runActions_throws (beh h m) hthrow _
      rw [hres] at h2
      exact h2
    subst hthrew
    simp only [fanOut, hres]
  refine ⟨?_, ?_, ?_⟩
  · rw [hmain, invokeHandler_log, fanOut_log_noThrow beh m l1 s hpre]
    simp
  · exact congrArg (fun p => p.1) (onmessage_core beh (some m) s)
  · intro m2 hm2
    exact onmessage_log_noThrow beh m2 _ hm2

/-- Witness for C10: handler 11 throws on `mMsg`; handlers 10 and 11 are
logged for that message but 12 is not, the stored socket is untouched, and
the next message `sMsg` (on which nobody throws) reaches all of 10, 11, 12. -/
theorem C10_throw_stops_fanout_witness :
    threeHandlerState.messageHandlers = [10] ++ 11 :: [12] ∧
    noThrowOn throwerBehavior mMsg [10] = true ∧
    HAction.throwExc ∈ throwerBehavior 11 mMsg ∧
    (onmessage throwerBehavior (some mMsg) threeHandlerState).deliveredLog
      = threeHandlerState.deliveredLog
        ++ ([10] ++ [11]).map (fun g => (g, mMsg)) ∧
    (onmessage throwerBehavior (some mMsg) threeHandlerState).ws
      = threeHandlerState.ws ∧
    noThrowOn throwerBehavior sMsg
      (onmessage throwerBehavior (some mMsg) threeHandlerState).messageHandlers
      = true ∧
    (onmessage throwerBehavior (some sMsg)
        (onmessage throwerBehavior (some mMsg) threeHandlerState)).deliveredLog
      = (onmessage throwerBehavior (some mMsg) threeHandlerState).deliveredLog
        ++ (onmessage throwerBehavior (some mMsg)
              threeHandlerState).messageHandlers.map (fun g => (g, sMsg)) := by
  obtain ⟨h1, h2, h3⟩ := C10_throw_stops_fanout throwerBehavior
    threeHandlerState mMsg [10] [12] 11 (by decide) (by decide) (by decide)
  exact ⟨by decide, by decide, by decide, h1, h2, by decide, h3 sMsg (by decide)⟩

end WebSocketService
